import Mathlib

/-!
Verification of the crime-analysis data pipeline (`src/app.py`, the table-view
variant, and `src/google-heatmaps.py`, the map variant).

The two scripts share one pandas pipeline: normalize column names, forward-fill
the hierarchical location columns, coerce the crime-count columns to numbers,
filter by (year, state), group by district and sum, derive `total_crime` and a
min-max-normalized `crime_index`, and rank the top-N districts.

Cells are modelled by `Value` (a rational number, a string, or `missing`, the
embedding of pandas `NaN`); a data frame is a column-name list plus rows of
cells aligned positionally.  Fallible pandas operations (column access on an
absent label, the sklearn fit on an empty frame, the explicit lat/lon schema
check) return `Except Err`.
-/

namespace Crime

/-- A cell of the data frame: a (rational) number, a string, or a missing
value (pandas `NaN`).  Rationals stand in for the float64 values of the
source; every arithmetic step of the pipeline (sums, min-max scaling) is
exact at the inputs the claims quantify over. -/
inductive Value where
  | num (q : ℚ)
  | str (s : String)
  | missing
deriving DecidableEq

/-- A data frame: column names plus rows, each row a list of cells aligned
positionally with `cols`. -/
structure DataFrame where
  cols : List String
  rows : List (List Value)
deriving DecidableEq

/-- Errors surfaced by the pipeline.  `keyError c` embeds the pandas
`KeyError` raised when column `c` is accessed but absent; `schemaError`
embeds the explicit `st.error`/`st.stop` taken by `google-heatmaps.py`
(lines 42-45) when `lat`/`lon` are missing; `emptyFitError` embeds the
sklearn `ValueError` ("Found array with 0 sample(s)") that
`MinMaxScaler.fit_transform` raises on a zero-row input. -/
inductive Err where
  | keyError (c : String)
  | schemaError
  | emptyFitError
deriving DecidableEq

/-- Read the cell of row `r` under column name `c`, walking `cols` and `r`
in step (first occurrence of `c` wins); absent column or ragged row reads
as `missing`. -/
def cellOf (cols : List String) (r : List Value) (c : String) : Value :=
  match cols, r with
  | [], _ => .missing
  | _ :: _, [] => .missing
  | c0 :: cs, v :: vs => if c0 = c then v else cellOf cs vs c

/-- Overwrite the cell of row `r` under column name `c` (first occurrence). -/
def setCell (cols : List String) (r : List Value) (c : String) (w : Value) :
    List Value :=
  match cols, r with
  | [], _ => r
  | _ :: _, [] => r
  | c0 :: cs, v :: vs => if c0 = c then w :: vs else v :: setCell cs vs c w

/-- True on the ASCII whitespace stripped by Python `str.strip()`. -/
def isSpaceChar (c : Char) : Bool :=
  c == ' ' || c == '\t' || c == '\n' || c == '\r'

/-- Strip leading and trailing whitespace from a character list. -/
def trimChars (l : List Char) : List Char :=
  ((l.dropWhile isSpaceChar).reverse.dropWhile isSpaceChar).reverse

/-- Lower-case an ASCII letter, the identity elsewhere. -/
def lowerChar (c : Char) : Char :=
  if 'A' ≤ c ∧ c ≤ 'Z' then Char.ofNat (c.toNat + 32) else c

/-- Model of `str.strip().str.lower()` applied to a column name
(`app.py` line 31, `google-heatmaps.py` line 35) for ASCII names. -/
def normName (s : String) : String :=
  String.mk ((trimChars s.data).map lowerChar)

/-- `df.columns = df.columns.str.strip().str.lower()`: rename every column. -/
def normalizeDF (df : DataFrame) : DataFrame :=
  ⟨df.cols.map normName, df.rows⟩

/-- One forward-fill step: a missing cell takes the value carried from
above, a present cell replaces it. -/
def ffillList (last : Value) : List Value → List Value
  | [] => []
  | v :: vs =>
    (if v = Value.missing then last else v) ::
      ffillList (if v = Value.missing then last else v) vs

/-- Forward-fill column `c` down the rows, carrying the last non-missing
value seen (`last`, initially `missing`: the first rows are not back-filled). -/
def ffillColRows (cols : List String) (c : String) (last : Value) :
    List (List Value) → List (List Value)
  | [] => []
  | r :: rs =>
    let v := cellOf cols r c
    let w := if v = Value.missing then last else v
    setCell cols r c w :: ffillColRows cols c w rs

/-- `df[c] = df[c].ffill()` (`app.py` lines 33-35, `google-heatmaps.py`
lines 38-39): pandas raises `KeyError` when the column is absent. -/
def ffillCol (df : DataFrame) (c : String) : Except Err DataFrame :=
  if c ∈ df.cols then
    .ok ⟨df.cols, ffillColRows df.cols c .missing df.rows⟩
  else .error (.keyError c)

/-- Numeric value of a digit character. -/
def digitVal (c : Char) : Option ℕ :=
  if '0' ≤ c ∧ c ≤ '9' then some (c.toNat - '0'.toNat) else none

/-- Accumulate a digit string into a natural number; `none` on any
non-digit character. -/
def parseNatGo (acc : ℕ) : List Char → Option ℕ
  | [] => some acc
  | c :: cs =>
    match digitVal c with
    | some d => parseNatGo (acc * 10 + d) cs
    | none => none

/-- Model of the numeric parsing done by `pd.to_numeric` restricted to
optionally-signed decimal integer literals (surrounding whitespace
stripped); every other string parses to `none`, which `to_numeric` with
`errors="coerce"` turns into `NaN`. -/
def parseRat (s : String) : Option ℚ :=
  match trimChars s.data with
  | [] => none
  | '-' :: cs =>
    match cs with
    | [] => none
    | _ :: _ => (parseNatGo 0 cs).map (fun n => -(n : ℚ))
  | cs => (parseNatGo 0 cs).map (fun n => (n : ℚ))

/-- `pd.to_numeric(v, errors="coerce")` on one cell: numbers pass through,
missing stays missing, strings parse or become missing (`NaN`). -/
def toNumericVal : Value → Value
  | .num q => .num q
  | .missing => .missing
  | .str s =>
    match parseRat s with
    | some q => .num q
    | none => .missing

/-- `.fillna(0)` on one cell. -/
def fillZero : Value → Value
  | .missing => .num 0
  | v => v

/-- The composed coercion `pd.to_numeric(·, errors="coerce").fillna(0)`
applied to one cell (`app.py` lines 41-43, `google-heatmaps.py` 51-53). -/
def coerceCell (v : Value) : Value := fillZero (toNumericVal v)

/-- Apply `coerceCell` to the cells of the columns listed in `cc`. -/
def coerceRow (cols cc : List String) (r : List Value) : List Value :=
  List.zipWith (fun c v => if c ∈ cc then coerceCell v else v) cols r

/-- `df[crime_cols] = df[crime_cols].apply(pd.to_numeric, errors="coerce").fillna(0)`. -/
def coerceCols (df : DataFrame) (cc : List String) : DataFrame :=
  ⟨df.cols, df.rows.map (coerceRow df.cols cc)⟩

/-- The exclusion list of `app.py` line 38. -/
def excludeTable : List String :=
  ["year", "state_name", "district_name", "registration_circles"]

/-- The exclusion list of `google-heatmaps.py` line 48. -/
def excludeMap : List String :=
  ["year", "state_name", "district_name", "registration_circles", "lat", "lon"]

/-- `crime_cols = [c for c in df.columns if c not in exclude_cols]`. -/
def crimeColsOf (df : DataFrame) (ex : List String) : List String :=
  df.cols.filter (fun c => decide (c ∉ ex))

/-- Pandas element-wise `==` used by the filter stage: `NaN` compares
unequal to everything (itself included), values of different kinds compare
unequal. -/
def veq : Value → Value → Bool
  | .num a, .num b => decide (a = b)
  | .str a, .str b => decide (a = b)
  | _, _ => false

/-- `df[(df["year"] == y) & (df["state_name"] == s)]` (`app.py` lines
63-66); accessing an absent column raises `KeyError`. -/
def filterRows (df : DataFrame) (y s : Value) : Except Err DataFrame :=
  if "year" ∈ df.cols then
    if "state_name" ∈ df.cols then
      .ok ⟨df.cols, df.rows.filter (fun r =>
        veq (cellOf df.cols r "year") y && veq (cellOf df.cols r "state_name") s)⟩
    else .error (.keyError "state_name")
  else .error (.keyError "year")

/-- The grouping key of a row: its cells under the `keys` columns. -/
def keyOf (cols keys : List String) (r : List Value) : List Value :=
  keys.map (fun c => cellOf cols r c)

/-- Deduplicate keeping first occurrences; `seen` accumulates emitted
elements. -/
def firstDedupGo {α : Type} [DecidableEq α] (seen : List α) :
    List α → List α
  | [] => []
  | x :: xs =>
    if x ∈ seen then firstDedupGo seen xs
    else x :: firstDedupGo (x :: seen) xs

/-- Deduplicate a list keeping the first occurrence of each element. -/
def firstDedup {α : Type} [DecidableEq α] (l : List α) : List α :=
  firstDedupGo [] l

/-- Pandas column sum: add numeric cells (every summed cell is numeric
after the coercion stage, which is the only way the pipeline reaches a
sum). -/
def addV : Value → Value → Value
  | .num a, .num b => .num (a + b)
  | _, _ => .missing

/-- Sum a list of (numeric) cells, starting from 0 as pandas `sum` does. -/
def sumVals (l : List Value) : Value := l.foldl addV (.num 0)

/-- Core of `filtered_df.groupby(keys, as_index=False)[cc].sum()`:
rows whose key tuple contains `NaN` are dropped (the pandas `dropna=True`
default); one output row per distinct key tuple carries the key cells
followed by the per-column sums over exactly the rows sharing that key.
Pandas additionally sorts the group keys (`sort=True` default); the claims
under verification are all insensitive to the order of the group rows, and
the model keeps first-occurrence order. -/
def groupbyCore (df : DataFrame) (keys cc : List String) : DataFrame :=
  let kf := fun r => keyOf df.cols keys r
  let kept := df.rows.filter (fun r => decide (Value.missing ∉ kf r))
  let ks := firstDedup (kept.map kf)
  ⟨keys ++ cc,
    ks.map (fun k =>
      k ++ cc.map (fun c =>
        sumVals (((kept.filter (fun r => decide (kf r = k)))).map
          (fun r => cellOf df.cols r c))))⟩

/-- `groupby` with the pandas `KeyError` on an absent grouping or
aggregated column. -/
def groupby (df : DataFrame) (keys cc : List String) : Except Err DataFrame :=
  match (keys ++ cc).find? (fun c => decide (c ∉ df.cols)) with
  | some c => .error (.keyError c)
  | none => .ok (groupbyCore df keys cc)

/-- Column assignment `df[c] = vals`: overwrite the column when the name
exists, append a new column otherwise (pandas semantics). -/
def setColDF (df : DataFrame) (c : String) (vals : List Value) : DataFrame :=
  if c ∈ df.cols then
    ⟨df.cols, List.zipWith (fun r w => setCell df.cols r c w) df.rows vals⟩
  else
    ⟨df.cols ++ [c], List.zipWith (fun r w => r ++ [w]) df.rows vals⟩

/-- `district_df["total_crime"] = district_df[crime_cols].sum(axis=1)`
(`app.py` line 75, `google-heatmaps.py` line 77). -/
def addTotal (df : DataFrame) (cc : List String) : DataFrame :=
  setColDF df "total_crime"
    (df.rows.map (fun r => sumVals (cc.map (fun c => cellOf df.cols r c))))

/-- The numeric content of a cell (0 for non-numbers; after the pipeline's
coercion and sums the cells read this way are always numeric). -/
def asQ : Value → ℚ
  | .num q => q
  | _ => 0

/-- Fold computing the minimum of `x :: xs`. -/
def foldMin (x : ℚ) (xs : List ℚ) : ℚ := xs.foldl min x

/-- Fold computing the maximum of `x :: xs`. -/
def foldMax (x : ℚ) (xs : List ℚ) : ℚ := xs.foldl max x

/-- `MinMaxScaler().fit_transform` on a single column, as the source uses
it (`app.py` lines 77-80, `google-heatmaps.py` 79-82): with the default
feature range (0, 1) sklearn computes `(x - data_min) / data_range` where
a zero `data_range` is replaced by 1 (`_handle_zeros_in_scale`); fitting a
zero-row input raises `ValueError` ("Found array with 0 sample(s) ...
a minimum of 1 is required"), embedded as `emptyFitError`. -/
def minMaxScale : List ℚ → Except Err (List ℚ)
  | [] => .error .emptyFitError
  | x :: xs =>
    let mn := foldMin x xs
    let mx := foldMax x xs
    let scale := if mx - mn = 0 then 1 else mx - mn
    .ok ((x :: xs).map (fun t => (t - mn) / scale))

/-- `district_df["crime_index"] = scaler.fit_transform(district_df[["total_crime"]])`. -/
def addIndex (df : DataFrame) : Except Err DataFrame :=
  match minMaxScale (df.rows.map (fun r => asQ (cellOf df.cols r "total_crime"))) with
  | .error e => .error e
  | .ok idx => .ok (setColDF df "crime_index" (idx.map Value.num))

/-- The crime-index stage applied to a district aggregate: add
`total_crime`, then `crime_index`. -/
def indexStage (agg : DataFrame) (cc : List String) : Except Err DataFrame :=
  addIndex (addTotal agg cc)

/-- The preprocessing of `app.py` lines 31-43: normalize column names,
forward-fill `state_name`, `district_name` and `registration_circles`,
compute the crime columns and coerce them; returns the cleaned frame and
the crime-column list. -/
def preprocessTable (df0 : DataFrame) : Except Err (DataFrame × List String) :=
  match ffillCol (normalizeDF df0) "state_name" with
  | .error e => .error e
  | .ok d1 =>
    match ffillCol d1 "district_name" with
    | .error e => .error e
    | .ok d2 =>
      match ffillCol d2 "registration_circles" with
      | .error e => .error e
      | .ok d3 =>
        let cc := crimeColsOf d3 excludeTable
        .ok (coerceCols d3 cc, cc)

/-- The selection-dependent tail of `app.py` (lines 63-80): filter by
(year, state), group by district, sum the crime columns, add `total_crime`
and `crime_index`. -/
def tableRest (d : DataFrame) (cc : List String) (y s : Value) :
    Except Err DataFrame :=
  match filterRows d y s with
  | .error e => .error e
  | .ok fd =>
    match groupby fd ["district_name"] cc with
    | .error e => .error e
    | .ok agg => indexStage agg cc

/-- The full data pipeline of `app.py` for one uploaded frame and one
(year, state) selection, up to the district aggregate with its
`crime_index` column. -/
def tablePipeline (df0 : DataFrame) (y s : Value) : Except Err DataFrame :=
  match preprocessTable df0 with
  | .error e => .error e
  | .ok p => tableRest p.1 p.2 y s

/-- The full data pipeline of `google-heatmaps.py` (lines 35-82):
normalize, forward-fill `state_name` and `district_name`, stop with the
schema error unless `lat` and `lon` are both present, coerce, filter,
group by (district, lat, lon), add `total_crime` and `crime_index`. -/
def mapPipeline (df0 : DataFrame) (y s : Value) : Except Err DataFrame :=
  match ffillCol (normalizeDF df0) "state_name" with
  | .error e => .error e
  | .ok d1 =>
    match ffillCol d1 "district_name" with
    | .error e => .error e
    | .ok d2 =>
      if "lat" ∈ d2.cols ∧ "lon" ∈ d2.cols then
        let cc := crimeColsOf d2 excludeMap
        let d3 := coerceCols d2 cc
        match filterRows d3 y s with
        | .error e => .error e
        | .ok fd =>
          match groupby fd ["district_name", "lat", "lon"] cc with
          | .error e => .error e
          | .ok agg => indexStage agg cc
      else .error .schemaError

/-- The sort key used by the ranker: the numeric content of the
`crime_index` cell. -/
def rowKey (cols : List String) (c : String) (r : List Value) : ℚ :=
  asQ (cellOf cols r c)

/-- Insert a row into an ascending-sorted list of rows, before the first
row of key `≥` its own (so an element inserted later in the insertion sort,
i.e. one earlier in the original order, lands before its key-ties: the
result is the stable ascending sort, which is what numpy's ascending
argsort computes on the small inputs where its quicksort reduces to
insertion sort). -/
def insertRowAsc (key : List Value → ℚ) (x : List Value) :
    List (List Value) → List (List Value)
  | [] => [x]
  | y :: ys => if key y < key x then y :: insertRowAsc key x ys else x :: y :: ys

/-- Stable ascending insertion sort of rows by `key`. -/
def sortRowsAsc (key : List Value → ℚ) : List (List Value) → List (List Value)
  | [] => []
  | x :: xs => insertRowAsc key x (sortRowsAsc key xs)

/-- `district_df.sort_values(c, ascending=False)`: pandas `nargsort`
computes the ascending argsort (default `kind="quicksort"`, which reduces
to a stable insertion sort on small inputs) and, for `ascending=False`,
reverses it — so key-ties come out in reversed original order. -/
def sortValuesDesc (df : DataFrame) (c : String) : DataFrame :=
  ⟨df.cols, (sortRowsAsc (rowKey df.cols c) df.rows).reverse⟩

/-- `top_districts = district_df.sort_values("crime_index", ascending=False).head(top_n)`
(`app.py` lines 124-127, `google-heatmaps.py` 179-182). -/
def topDistricts (df : DataFrame) (n : ℕ) : DataFrame :=
  ⟨df.cols, (sortValuesDesc df "crime_index").rows.take n⟩

/-- The cell values of column `c` down the rows of `df`. -/
def colVals (df : DataFrame) (c : String) : List Value :=
  df.rows.map (fun r => cellOf df.cols r c)

/-- The last non-missing value of a list, `missing` when there is none. -/
def lastNonMissing (l : List Value) : Value :=
  l.foldl (fun a v => if v = Value.missing then a else v) .missing

/-- Decidable equality of pipeline results, so that concrete runs can be
checked by `decide`. -/
instance {e a : Type} [DecidableEq e] [DecidableEq a] : DecidableEq (Except e a) := fun x y =>
  match x, y with
  | .error u, .error v =>
    if h : u = v then .isTrue (by rw [h]) else .isFalse (by intro hc; cases hc; exact h rfl)
  | .ok u, .ok v =>
    if h : u = v then .isTrue (by rw [h]) else .isFalse (by intro hc; cases hc; exact h rfl)
  | .error _, .ok _ => .isFalse (by intro hc; cases hc)
  | .ok _, .error _ => .isFalse (by intro hc; cases hc)

/-- A one-row frame with the full table-view schema, used to exercise the
pipeline on a (year, state) selection that matches no rows. -/
def cexFrame3 : DataFrame :=
  ⟨["year", "state_name", "district_name", "registration_circles", "theft"],
   [[.num 2020, .str "A", .str "X", .str "c", .num 5]]⟩

/-- A frame whose normalized columns lack `state_name` (and `lat`/`lon`). -/
def cexFrame4 : DataFrame := ⟨["year"], [[.num 2020]]⟩

/-- A map-mode frame with `state_name` and `district_name` but no `lat`. -/
def wFrame4 : DataFrame :=
  ⟨["year", "state_name", "district_name"], [[.num 2020, .str "A", .str "X"]]⟩

/-- A filtered frame whose single row has a missing district name. -/
def cexFrame5 : DataFrame := ⟨["district_name", "theft"], [[.missing, .num 5]]⟩

/-- A filtered frame with two districts and three rows, all keys present. -/
def wFrame5 : DataFrame :=
  ⟨["district_name", "theft"],
   [[.str "X", .num 5], [.str "X", .num 3], [.str "Y", .num 2]]⟩

/-- A full-schema frame whose `theft` cell holds the string `"-1"`. -/
def cexFrame6 : DataFrame :=
  ⟨["year", "state_name", "district_name", "registration_circles", "theft"],
   [[.num 2020, .str "A", .str "X", .str "c", .str "-1"]]⟩

/-- A small frame with one crime column holding an unparseable string. -/
def wFrame6 : DataFrame := ⟨["year", "theft"], [[.num 2020, .str "x"]]⟩

/-- A one-column frame whose second row is missing. -/
def wFrame7 : DataFrame := ⟨["state_name"], [[.str "A"], [.missing]]⟩

/-- A district aggregate with two rows tied on `crime_index`. -/
def cexFrame8 : DataFrame :=
  ⟨["district_name", "crime_index"], [[.str "X", .num 1], [.str "Y", .num 1]]⟩

/-- A one-row district aggregate. -/
def wFrame8 : DataFrame := ⟨["district_name", "crime_index"], [[.str "X", .num 1]]⟩

/-- A two-crime-column aggregate row. -/
def wFrame9 : DataFrame :=
  ⟨["district_name", "theft", "assault"], [[.str "X", .num 2, .num 3]]⟩

/-- An aggregate that already carries a `total_crime` column (reachable:
an uploaded CSV with a `total_crime` header is not in the exclusion list,
so the column is coerced, summed through the groupby, and then overwritten
by `app.py` line 75). -/
def cexFrame9 : DataFrame :=
  ⟨["district_name", "theft", "total_crime"], [[.str "X", .num 5, .num 7]]⟩

/-- A table-view frame lacking the `registration_circles` column. -/
def cexFrame10 : DataFrame :=
  ⟨["year", "state_name", "district_name", "theft"],
   [[.num 2020, .str "A", .str "X", .num 5]]⟩

/-- A frame for the empty-selection scenario. -/
def wFrame3 : DataFrame :=
  ⟨["year", "state_name", "district_name", "theft"],
   [[.num 2020, .str "A", .str "X", .num 1]]⟩

/-- The empty filtered frame obtained from `wFrame3` with year 1999. -/
def wFrame3f : DataFrame := ⟨["year", "state_name", "district_name", "theft"], []⟩

theorem foldMin_cons (x a : ℚ) (xs : List ℚ) :
    foldMin x (a :: xs) = foldMin (min x a) xs := rfl

theorem foldMax_cons (x a : ℚ) (xs : List ℚ) :
    foldMax x (a :: xs) = foldMax (max x a) xs := rfl

theorem foldMin_mem (x : ℚ) (xs : List ℚ) : foldMin x xs ∈ x :: xs := by
  induction xs generalizing x with
  | nil => simp [foldMin]
  | cons a xs ih =>
    rw [foldMin_cons]
    rcases List.mem_cons.mp (ih (min x a)) with h | h
    · rcases min_choice x a with hm | hm
      · exact List.mem_cons.mpr (Or.inl (h.trans hm))
      · exact List.mem_cons.mpr (Or.inr (List.mem_cons.mpr (Or.inl (h.trans hm))))
    · exact List.mem_cons.mpr (Or.inr (List.mem_cons.mpr (Or.inr h)))

theorem foldMax_mem (x : ℚ) (xs : List ℚ) : foldMax x xs ∈ x :: xs := by
  induction xs generalizing x with
  | nil => simp [foldMax]
  | cons a xs ih =>
    rw [foldMax_cons]
    rcases List.mem_cons.mp (ih (max x a)) with h | h
    · rcases max_choice x a with hm | hm
      · exact List.mem_cons.mpr (Or.inl (h.trans hm))
      · exact List.mem_cons.mpr (Or.inr (List.mem_cons.mpr (Or.inl (h.trans hm))))
    · exact List.mem_cons.mpr (Or.inr (List.mem_cons.mpr (Or.inr h)))

theorem foldMin_le (x : ℚ) (xs : List ℚ) : ∀ y ∈ x :: xs, foldMin x xs ≤ y := by
  induction xs generalizing x with
  | nil =>
    intro y hy
    simp only [List.mem_cons, List.not_mem_nil, or_false] at hy
    simp [foldMin, hy]
  | cons a xs ih =>
    intro y hy
    rw [foldMin_cons]
    simp only [List.mem_cons] at hy
    rcases hy with rfl | rfl | hy
    · exact le_trans (ih (min y a) (min y a) (List.mem_cons_self _ _)) (min_le_left _ _)
    · exact le_trans (ih (min x y) (min x y) (List.mem_cons_self _ _)) (min_le_right _ _)
    · exact ih (min x a) y (List.mem_cons_of_mem _ hy)

theorem le_foldMax (x : ℚ) (xs : List ℚ) : ∀ y ∈ x :: xs, y ≤ foldMax x xs := by
  induction xs generalizing x with
  | nil =>
    intro y hy
    simp only [List.mem_cons, List.not_mem_nil, or_false] at hy
    simp [foldMax, hy]
  | cons a xs ih =>
    intro y hy
    rw [foldMax_cons]
    simp only [List.mem_cons] at hy
    rcases hy with rfl | rfl | hy
    · exact le_trans (le_max_left _ _) (ih (max y a) (max y a) (List.mem_cons_self _ _))
    · exact le_trans (le_max_right _ _) (ih (max x y) (max x y) (List.mem_cons_self _ _))
    · exact ih (max x a) y (List.mem_cons_of_mem _ hy)

theorem foldMin_eq (x : ℚ) (xs : List ℚ) (c : ℚ) (hc : c ∈ x :: xs)
    (h : ∀ y ∈ x :: xs, c ≤ y) : foldMin x xs = c :=
  le_antisymm (foldMin_le x xs c hc) (h _ (foldMin_mem x xs))

theorem foldMax_eq (x : ℚ) (xs : List ℚ) (c : ℚ) (hc : c ∈ x :: xs)
    (h : ∀ y ∈ x :: xs, y ≤ c) : foldMax x xs = c :=
  le_antisymm (h _ (foldMax_mem x xs)) (le_foldMax x xs c hc)

/-- Claim C1: on a non-empty aggregate whose `total_crime` values vary, the
crime-index stage returns exactly `(total - min) / (max - min)` for every
row, and the resulting `crime_index` column has minimum 0 and maximum 1. -/
theorem claim1_crime_index_minmax (x : ℚ) (xs : List ℚ)
    (hvar : ∃ a ∈ x :: xs, ∃ b ∈ x :: xs, a ≠ b) :
    minMaxScale (x :: xs) =
      .ok ((x :: xs).map
        (fun t => (t - foldMin x xs) / (foldMax x xs - foldMin x xs))) ∧
    foldMin ((x - foldMin x xs) / (foldMax x xs - foldMin x xs))
        (xs.map (fun t => (t - foldMin x xs) / (foldMax x xs - foldMin x xs))) = 0 ∧
    foldMax ((x - foldMin x xs) / (foldMax x xs - foldMin x xs))
        (xs.map (fun t => (t - foldMin x xs) / (foldMax x xs - foldMin x xs))) = 1 := by
  obtain ⟨a, ha, b, hb, hab⟩ := hvar
  have hlt : foldMin x xs < foldMax x xs := by
    rcases lt_or_gt_of_ne hab with h | h
    · exact lt_of_le_of_lt (foldMin_le x xs a ha) (lt_of_lt_of_le h (le_foldMax x xs b hb))
    · exact lt_of_le_of_lt (foldMin_le x xs b hb) (lt_of_lt_of_le h (le_foldMax x xs a ha))
  have hne : foldMax x xs - foldMin x xs ≠ 0 := sub_ne_zero.mpr (ne_of_gt hlt)
  refine ⟨?_, ?_, ?_⟩
  · simp only [minMaxScale]
    rw [if_neg hne]
  · apply foldMin_eq
    · show (0 : ℚ) ∈ (x :: xs).map (fun t => (t - foldMin x xs) / (foldMax x xs - foldMin x xs))
      have h0 : (foldMin x xs - foldMin x xs) / (foldMax x xs - foldMin x xs) = 0 := by
        rw [sub_self, zero_div]
      rw [← h0]
      exact List.mem_map_of_mem _ (foldMin_mem x xs)
    · intro y hy
      have hy2 : y ∈ (x :: xs).map
          (fun t => (t - foldMin x xs) / (foldMax x xs - foldMin x xs)) := hy
      rw [List.mem_map] at hy2
      obtain ⟨t, ht, rfl⟩ := hy2
      exact div_nonneg (sub_nonneg.mpr (foldMin_le x xs t ht)) (le_of_lt (sub_pos.mpr hlt))
  · apply foldMax_eq
    · show (1 : ℚ) ∈ (x :: xs).map (fun t => (t - foldMin x xs) / (foldMax x xs - foldMin x xs))
      have h1 : (foldMax x xs - foldMin x xs) / (foldMax x xs - foldMin x xs) = 1 :=
        div_self hne
      rw [← h1]
      exact List.mem_map_of_mem _ (foldMax_mem x xs)
    · intro y hy
      have hy2 : y ∈ (x :: xs).map
          (fun t => (t - foldMin x xs) / (foldMax x xs - foldMin x xs)) := hy
      rw [List.mem_map] at hy2
      obtain ⟨t, ht, rfl⟩ := hy2
      rw [div_le_one (sub_pos.mpr hlt)]
      exact sub_le_sub_right (le_foldMax x xs t ht) _

/-- Claim C1 witness: the aggregate with totals 1 and 3 satisfies the
variation hypothesis and gets indices 0 and 1. -/
theorem claim1_crime_index_minmax_witness :
    (∃ a ∈ (1 : ℚ) :: [3], ∃ b ∈ (1 : ℚ) :: [3], a ≠ b) ∧
    (minMaxScale ((1 : ℚ) :: [3]) =
      .ok (((1 : ℚ) :: [3]).map
        (fun t => (t - foldMin 1 [3]) / (foldMax 1 [3] - foldMin 1 [3]))) ∧
    foldMin (((1 : ℚ) - foldMin 1 [3]) / (foldMax 1 [3] - foldMin 1 [3]))
        (([3] : List ℚ).map (fun t => (t - foldMin 1 [3]) / (foldMax 1 [3] - foldMin 1 [3]))) = 0 ∧
    foldMax (((1 : ℚ) - foldMin 1 [3]) / (foldMax 1 [3] - foldMin 1 [3]))
        (([3] : List ℚ).map (fun t => (t - foldMin 1 [3]) / (foldMax 1 [3] - foldMin 1 [3]))) = 1) :=
  ⟨by decide, claim1_crime_index_minmax 1 [3] (by decide)⟩

/-- Claim C2: on a non-empty aggregate whose `total_crime` values are all
equal (the single-row case included), the crime-index stage succeeds — the
zero range is replaced by 1, never divided by — and every row gets
`crime_index = 0`. -/
theorem claim2_crime_index_constant (x : ℚ) (xs : List ℚ)
    (hconst : ∀ y ∈ x :: xs, y = x) :
    minMaxScale (x :: xs) = .ok ((x :: xs).map (fun _ => (0 : ℚ))) := by
  have hmn : foldMin x xs = x :=
    foldMin_eq x xs x (List.mem_cons_self _ _) (fun y hy => le_of_eq (hconst y hy).symm)
  have hmx : foldMax x xs = x :=
    foldMax_eq x xs x (List.mem_cons_self _ _) (fun y hy => le_of_eq (hconst y hy))
  have h1 : minMaxScale (x :: xs) = .ok ((x :: xs).map (fun t => (t - x) / 1)) := by
    simp [minMaxScale, hmn, hmx]
  rw [h1]
  refine congrArg Except.ok (List.map_congr_left ?_)
  intro t ht
  rw [hconst t ht, sub_self, zero_div]

/-- Claim C2 witness: the constant aggregate [2, 2, 2] maps to zeros with
no error. -/
theorem claim2_crime_index_constant_witness :
    (∀ y ∈ (2 : ℚ) :: [2, 2], y = 2) ∧
    minMaxScale ((2 : ℚ) :: [2, 2]) = .ok (((2 : ℚ) :: [2, 2]).map (fun _ => (0 : ℚ))) :=
  ⟨by decide, claim2_crime_index_constant 2 [2, 2] (by decide)⟩

theorem ffillCol_cols (df : DataFrame) (c : String) (hc : c ∈ df.cols) :
    ffillCol df c = .ok ⟨df.cols, ffillColRows df.cols c .missing df.rows⟩ := by
  simp [ffillCol, hc]

theorem ffillCol_notMem (df : DataFrame) (c : String) (hc : c ∉ df.cols) :
    ffillCol df c = .error (.keyError c) := by
  simp [ffillCol, hc]

theorem setColDF_rows_nil (df : DataFrame) (c : String) (vals : List Value)
    (h : df.rows = []) : (setColDF df c vals).rows = [] := by
  unfold setColDF
  split <;> simp [h]

theorem addIndex_empty (df : DataFrame) (h : df.rows = []) :
    addIndex df = .error .emptyFitError := by
  unfold addIndex
  rw [h]
  rfl

theorem indexStage_empty (agg : DataFrame) (cc : List String) (h : agg.rows = []) :
    indexStage agg cc = .error .emptyFitError := by
  unfold indexStage addTotal
  exact addIndex_empty _ (setColDF_rows_nil agg _ _ h)

/-- Claim C3 (counterexample): a cleaned full-schema dataset filtered on a
(year, state) present in no rows does NOT pass the crime-index stage
exception-free — the pipeline returns the sklearn empty-fit error, because
`MinMaxScaler.fit_transform` requires at least one sample. -/
theorem claim3_counterexample :
    tablePipeline cexFrame3 (.num 1999) (.str "A") = .error .emptyFitError := by decide

/-- Claim C3 (amended): on an empty (year, state) selection the aggregation
stage does produce the well-typed empty table with the expected column set,
but the crime-index stage then fails with the sklearn empty-fit error
rather than returning an empty `crime_index` column. -/
theorem claim3_empty_selection (d : DataFrame) (cc : List String) (y s : Value)
    (fd : DataFrame) (hf : filterRows d y s = .ok fd) (he : fd.rows = [])
    (hd : "district_name" ∈ fd.cols) (hcc : ∀ c ∈ cc, c ∈ fd.cols) :
    groupby fd ["district_name"] cc = .ok ⟨"district_name" :: cc, []⟩ ∧
    tableRest d cc y s = .error .emptyFitError := by
  have hfind : (["district_name"] ++ cc).find? (fun c => decide (c ∉ fd.cols)) = none := by
    rw [List.find?_eq_none]
    intro c hcmem
    simp only [List.cons_append, List.nil_append, List.mem_cons] at hcmem
    rcases hcmem with rfl | hcmem
    · simp [hd]
    · simp [hcc c hcmem]
  have hg : groupby fd ["district_name"] cc = .ok ⟨"district_name" :: cc, []⟩ := by
    unfold groupby
    rw [hfind]
    unfold groupbyCore
    rw [he]
    rfl
  refine ⟨hg, ?_⟩
  simp only [tableRest, hf, hg]
  exact indexStage_empty _ _ rfl

/-- Claim C3 witness: a concrete frame and a selection matching no rows. -/
theorem claim3_empty_selection_witness :
    (filterRows wFrame3 (.num 1999) (.str "A") = .ok wFrame3f ∧ wFrame3f.rows = [] ∧
      "district_name" ∈ wFrame3f.cols ∧ ∀ c ∈ ["theft"], c ∈ wFrame3f.cols) ∧
    (groupby wFrame3f ["district_name"] ["theft"] = .ok ⟨"district_name" :: ["theft"], []⟩ ∧
      tableRest wFrame3 ["theft"] (.num 1999) (.str "A") = .error .emptyFitError) :=
  ⟨⟨by decide, by decide, by decide, by decide⟩,
   claim3_empty_selection wFrame3 ["theft"] (.num 1999) (.str "A") wFrame3f
     (by decide) (by decide) (by decide) (by decide)⟩

/-- Claim C4 (counterexample): a map-mode input lacking `lon` (and
`state_name`) fails at the forward-fill stage with the pandas `KeyError`,
not with the user-facing schema stop — the `lat`/`lon` check of
`google-heatmaps.py` runs only after the two forward-fills. -/
theorem claim4_counterexample :
    mapPipeline cexFrame4 (.num 2020) (.str "A") = .error (.keyError "state_name") ∧
    Err.keyError "state_name" ≠ Err.schemaError := by decide

/-- Claim C4 (amended): a map-mode input that does have the forward-filled
columns (`state_name`, `district_name`) but lacks `lat` or `lon` after
normalization stops with the schema error before any aggregation. -/
theorem claim4_schema_stop (df0 : DataFrame) (y s : Value)
    (h1 : "state_name" ∈ (normalizeDF df0).cols)
    (h2 : "district_name" ∈ (normalizeDF df0).cols)
    (h3 : ¬ ("lat" ∈ (normalizeDF df0).cols ∧ "lon" ∈ (normalizeDF df0).cols)) :
    mapPipeline df0 y s = .error .schemaError := by
  simp [mapPipeline, ffillCol_cols, h1, h2, h3]

/-- Claim C4 witness: a frame with `state_name`/`district_name` but no
`lat`/`lon` stops with the schema error. -/
theorem claim4_schema_stop_witness :
    ("state_name" ∈ (normalizeDF wFrame4).cols ∧
      "district_name" ∈ (normalizeDF wFrame4).cols ∧
      ¬ ("lat" ∈ (normalizeDF wFrame4).cols ∧ "lon" ∈ (normalizeDF wFrame4).cols)) ∧
    mapPipeline wFrame4 (.num 2020) (.str "A") = .error .schemaError :=
  ⟨⟨by decide, by decide, by decide⟩,
   claim4_schema_stop wFrame4 (.num 2020) (.str "A") (by decide) (by decide) (by decide)⟩

/-- Claim C10 (counterexample): a table-view dataset lacking the
`registration_circles` column does NOT run to completion — `app.py`
line 35 forward-fills that column unconditionally, so the pipeline stops
with the pandas `KeyError`. -/
theorem claim10_counterexample :
    tablePipeline cexFrame10 (.num 2020) (.str "A") =
      .error (.keyError "registration_circles") := by decide

/-- Claim C10 (amended): in table-view mode `registration_circles` is
effectively required: any input whose normalized columns include
`state_name` and `district_name` but not `registration_circles` fails at
the forward-fill stage with the `KeyError` naming it. -/
theorem claim10_registration_required (df0 : DataFrame) (y s : Value)
    (h1 : "state_name" ∈ (normalizeDF df0).cols)
    (h2 : "district_name" ∈ (normalizeDF df0).cols)
    (h3 : "registration_circles" ∉ (normalizeDF df0).cols) :
    tablePipeline df0 y s = .error (.keyError "registration_circles") := by
  simp [tablePipeline, preprocessTable, ffillCol_cols, ffillCol_notMem, h1, h2, h3]

/-- Claim C10 witness: the concrete frame without `registration_circles`. -/
theorem claim10_registration_required_witness :
    ("state_name" ∈ (normalizeDF cexFrame10).cols ∧
      "district_name" ∈ (normalizeDF cexFrame10).cols ∧
      "registration_circles" ∉ (normalizeDF cexFrame10).cols) ∧
    tablePipeline cexFrame10 (.num 2021) (.str "B") =
      .error (.keyError "registration_circles") :=
  ⟨⟨by decide, by decide, by decide⟩,
   claim10_registration_required cexFrame10 (.num 2021) (.str "B")
     (by decide) (by decide) (by decide)⟩

theorem cellOf_coerceRow (cols cc : List String) (r : List Value) (c : String)
    (hlen : r.length = cols.length) (hc : c ∈ cols) :
    cellOf cols (coerceRow cols cc r) c =
      if c ∈ cc then coerceCell (cellOf cols r c) else cellOf cols r c := by
  induction cols generalizing r with
  | nil => cases hc
  | cons c0 cs ih =>
    cases r with
    | nil => simp at hlen
    | cons v vs =>
      have hstep : coerceRow (c0 :: cs) cc (v :: vs) =
          (if c0 ∈ cc then coerceCell v else v) :: coerceRow cs cc vs := rfl
      rw [hstep]
      by_cases h0 : c0 = c
      · subst h0
        simp [cellOf]
      · have hc2 : c ∈ cs := by
          rcases List.mem_cons.mp hc with h | h
          · exact absurd h.symm h0
          · exact h
        have e1 : cellOf (c0 :: cs) ((if c0 ∈ cc then coerceCell v else v) ::
            coerceRow cs cc vs) c = cellOf cs (coerceRow cs cc vs) c := by
          simp [cellOf, h0]
        have e2 : cellOf (c0 :: cs) (v :: vs) c = cellOf cs vs c := by
          simp [cellOf, h0]
        rw [e1, e2]
        exact ih vs (by simpa using hlen) hc2

theorem coerceCell_isNum (v : Value) : ∃ q : ℚ, coerceCell v = .num q := by
  cases v with
  | num q => exact ⟨q, rfl⟩
  | str s =>
    cases hp : parseRat s with
    | none => exact ⟨0, by simp [coerceCell, toNumericVal, hp, fillZero]⟩
    | some q => exact ⟨q, by simp [coerceCell, toNumericVal, hp, fillZero]⟩
  | missing => exact ⟨0, rfl⟩

/-- Claim C6 (counterexample): the string cell `"-1"` survives coercion as
the negative number -1, so "every crime-type value is ≥ 0 after coercion"
fails — coercion does not clamp negative numerals. -/
theorem claim6_counterexample :
    preprocessTable cexFrame6 =
      .ok (⟨["year", "state_name", "district_name", "registration_circles", "theft"],
            [[.num 2020, .str "A", .str "X", .str "c", .num (-1)]]⟩, ["theft"]) ∧
    ((-1 : ℚ) < 0) := by decide

/-- Claim C6 (amended): the coercion stage is total and leaves every
crime-type cell a (possibly negative) number, never missing; unparseable
strings and missing cells become 0. -/
theorem claim6_coercion_total (df : DataFrame) (cc : List String)
    (hwf : ∀ r ∈ df.rows, r.length = df.cols.length) :
    (∀ r ∈ (coerceCols df cc).rows, ∀ c, c ∈ cc → c ∈ df.cols →
      ∃ q : ℚ, cellOf (coerceCols df cc).cols r c = .num q) ∧
    (∀ s : String, parseRat s = none → coerceCell (.str s) = .num 0) ∧
    coerceCell .missing = .num 0 := by
  refine ⟨?_, ?_, rfl⟩
  · intro r hr c hcc hcols
    have hrows : (coerceCols df cc).rows = df.rows.map (coerceRow df.cols cc) := rfl
    rw [hrows, List.mem_map] at hr
    obtain ⟨r0, hr0, rfl⟩ := hr
    have hcols2 : (coerceCols df cc).cols = df.cols := rfl
    rw [hcols2, cellOf_coerceRow df.cols cc r0 c (hwf r0 hr0) hcols, if_pos hcc]
    exact coerceCell_isNum _
  · intro s hs
    simp [coerceCell, toNumericVal, hs, fillZero]

/-- Claim C6 witness: a concrete frame whose crime cell is unparseable. -/
theorem claim6_coercion_total_witness :
    (∀ r ∈ wFrame6.rows, r.length = wFrame6.cols.length) ∧
    ((∀ r ∈ (coerceCols wFrame6 ["theft"]).rows, ∀ c, c ∈ ["theft"] → c ∈ wFrame6.cols →
        ∃ q : ℚ, cellOf (coerceCols wFrame6 ["theft"]).cols r c = .num q) ∧
      (∀ s : String, parseRat s = none → coerceCell (.str s) = .num 0) ∧
      coerceCell .missing = .num 0) :=
  ⟨by decide, claim6_coercion_total wFrame6 ["theft"] (by decide)⟩

theorem cellOf_setCell_self (cols : List String) (r : List Value) (c : String) (w : Value)
    (hlen : r.length = cols.length) (hc : c ∈ cols) :
    cellOf cols (setCell cols r c w) c = w := by
  induction cols generalizing r with
  | nil => cases hc
  | cons c0 cs ih =>
    cases r with
    | nil => simp at hlen
    | cons v vs =>
      by_cases h0 : c0 = c
      · simp [setCell, cellOf, h0]
      · have hc2 : c ∈ cs := by
          rcases List.mem_cons.mp hc with h | h
          · exact absurd h.symm h0
          · exact h
        have e : cellOf (c0 :: cs) (setCell (c0 :: cs) (v :: vs) c w) c =
            cellOf cs (setCell cs vs c w) c := by
          simp [setCell, cellOf, h0]
        rw [e]
        exact ih vs (by simpa using hlen) hc2

theorem ffillColRows_colVals (cols : List String) (c : String) (last : Value)
    (rows : List (List Value)) (hwf : ∀ r ∈ rows, r.length = cols.length)
    (hc : c ∈ cols) :
    (ffillColRows cols c last rows).map (fun r => cellOf cols r c) =
      ffillList last (rows.map (fun r => cellOf cols r c)) := by
  induction rows generalizing last with
  | nil => rfl
  | cons r rs ih =>
    have hr : r.length = cols.length := hwf r (List.mem_cons_self _ _)
    have hwf2 : ∀ r2 ∈ rs, r2.length = cols.length :=
      fun r2 h2 => hwf r2 (List.mem_cons_of_mem _ h2)
    simp only [ffillColRows, List.map_cons, ffillList, List.cons.injEq]
    refine ⟨?_, ?_⟩
    · exact cellOf_setCell_self cols r c _ hr hc
    · exact ih _ hwf2

theorem ffillList_getD (l : List Value) (last : Value) (i : ℕ)
    (hi : i < l.length) (hm : l.getD i .missing = .missing) :
    (ffillList last l).getD i .missing =
      (l.take i).foldl (fun a v => if v = Value.missing then a else v) last := by
  induction l generalizing last i with
  | nil => simp at hi
  | cons v vs ih =>
    cases i with
    | zero =>
      rw [List.getD_cons_zero] at hm
      simp [ffillList, hm]
    | succ j =>
      have hi2 : j < vs.length := Nat.lt_of_succ_lt_succ hi
      have hm2 : vs.getD j .missing = .missing := by
        rw [List.getD_cons_succ] at hm
        exact hm
      simp only [ffillList, List.getD_cons_succ, List.take_succ_cons, List.foldl_cons]
      exact ih _ j hi2 hm2

/-- Claim C7: forward-fill of a column leaves a cell that was missing at
row `i` equal to the nearest preceding non-missing value of that column
(the last non-missing among rows `0..i-1`), and a missing row-0 cell stays
missing — no back-fill.  This is the fill `app.py` applies to
`state_name`, `district_name` and `registration_circles` and
`google-heatmaps.py` to the first two. -/
theorem claim7_ffill_nearest (df d2 : DataFrame) (c : String) (i : ℕ)
    (hwf : ∀ r ∈ df.rows, r.length = df.cols.length)
    (hok : ffillCol df c = .ok d2)
    (hi : i < df.rows.length)
    (hm : (colVals df c).getD i .missing = .missing) :
    (colVals d2 c).getD i .missing = lastNonMissing ((colVals df c).take i) ∧
    (i = 0 → (colVals d2 c).getD i .missing = .missing) := by
  have hc : c ∈ df.cols := by
    by_contra hcn
    rw [ffillCol_notMem df c hcn] at hok
    simp at hok
  rw [ffillCol_cols df c hc] at hok
  injection hok with h
  subst h
  have hcv : colVals (⟨df.cols, ffillColRows df.cols c .missing df.rows⟩ : DataFrame) c =
      ffillList .missing (colVals df c) := by
    show (ffillColRows df.cols c .missing df.rows).map (fun r => cellOf df.cols r c) = _
    exact ffillColRows_colVals df.cols c .missing df.rows hwf hc
  rw [hcv]
  have hi2 : i < (colVals df c).length := by
    have hlen : (colVals df c).length = df.rows.length := by simp [colVals]
    rw [hlen]
    exact hi
  constructor
  · exact ffillList_getD (colVals df c) .missing i hi2 hm
  · intro h0
    subst h0
    rw [ffillList_getD (colVals df c) .missing 0 hi2 hm]
    rfl

/-- Claim C7 witness: a two-row column [A, missing] fills row 1 with A. -/
theorem claim7_ffill_nearest_witness :
    ((∀ r ∈ wFrame7.rows, r.length = wFrame7.cols.length) ∧
      ffillCol wFrame7 "state_name" =
        .ok ⟨["state_name"], [[.str "A"], [.str "A"]]⟩ ∧
      1 < wFrame7.rows.length ∧
      (colVals wFrame7 "state_name").getD 1 .missing = .missing) ∧
    ((colVals (⟨["state_name"], [[.str "A"], [.str "A"]]⟩ : DataFrame) "state_name").getD 1
          .missing = lastNonMissing ((colVals wFrame7 "state_name").take 1) ∧
      (1 = 0 → (colVals (⟨["state_name"], [[.str "A"], [.str "A"]]⟩ : DataFrame)
          "state_name").getD 1 .missing = .missing)) :=
  ⟨⟨by decide, by decide, by decide, by decide⟩,
   claim7_ffill_nearest wFrame7 ⟨["state_name"], [[.str "A"], [.str "A"]]⟩ "state_name" 1
     (by decide) (by decide) (by decide) (by decide)⟩

theorem cellOf_append_self (cols : List String) (r : List Value) (c : String) (w : Value)
    (hlen : r.length = cols.length) (hc : c ∉ cols) :
    cellOf (cols ++ [c]) (r ++ [w]) c = w := by
  induction cols generalizing r with
  | nil =>
    cases r with
    | nil => simp [cellOf]
    | cons v vs => simp at hlen
  | cons c0 cs ih =>
    cases r with
    | nil => simp at hlen
    | cons v vs =>
      have h0 : c0 ≠ c := fun h => hc (by rw [← h]; exact List.mem_cons_self _ _)
      have e : cellOf ((c0 :: cs) ++ [c]) ((v :: vs) ++ [w]) c =
          cellOf (cs ++ [c]) (vs ++ [w]) c := by
        simp [cellOf, h0]
      rw [e]
      exact ih vs (by simpa using hlen) (fun hmem => hc (List.mem_cons_of_mem _ hmem))

theorem cellOf_append_other (cols : List String) (r : List Value) (d c : String) (w : Value)
    (hlen : r.length = cols.length) (hne : c ≠ d) :
    cellOf (cols ++ [d]) (r ++ [w]) c = cellOf cols r c := by
  induction cols generalizing r with
  | nil =>
    cases r with
    | nil => simp [cellOf, Ne.symm hne]
    | cons v vs => simp at hlen
  | cons c0 cs ih =>
    cases r with
    | nil => simp at hlen
    | cons v vs =>
      by_cases h0 : c0 = c
      · simp [cellOf, h0]
      · have e1 : cellOf ((c0 :: cs) ++ [d]) ((v :: vs) ++ [w]) c =
            cellOf (cs ++ [d]) (vs ++ [w]) c := by
          simp [cellOf, h0]
        have e2 : cellOf (c0 :: cs) (v :: vs) c = cellOf cs vs c := by
          simp [cellOf, h0]
        rw [e1, e2]
        exact ih vs (by simpa using hlen)

theorem zipWith_append_map (rows : List (List Value)) (f : List Value → Value) :
    List.zipWith (fun r w => r ++ [w]) rows (rows.map f) =
      rows.map (fun r => r ++ [f r]) := by
  induction rows with
  | nil => rfl
  | cons r rs ih => simp [ih]

/-- Claim C9 (counterexample): on an aggregate that already carries a
`total_crime` column (with theft 5 and old total 7), `app.py` line 75
overwrites that column with the sum computed over the OLD values
(5 + 7 = 12), while the row-wise sum of the crime-type columns of the
resulting row is 5 + 12 = 17 — the claimed invariant fails on this
reachable pipeline input. -/
theorem claim9_counterexample :
    (addTotal cexFrame9 ["theft", "total_crime"]).rows =
      [[Value.str "X", Value.num 5, Value.num 12]] ∧
    cellOf (addTotal cexFrame9 ["theft", "total_crime"]).cols
      [Value.str "X", Value.num 5, Value.num 12] "total_crime" = Value.num 12 ∧
    sumVals (["theft", "total_crime"].map (fun c =>
      cellOf (addTotal cexFrame9 ["theft", "total_crime"]).cols
        [Value.str "X", Value.num 5, Value.num 12] c)) = Value.num 17 ∧
    Value.num (12 : ℚ) ≠ Value.num (17 : ℚ) := by
  norm_num +decide [addTotal, setColDF, setCell, cellOf, sumVals, addV, cexFrame9]

/-- Claim C9 (amended): in every row of the aggregate extended by the
crime-index stage, `total_crime` equals the row-wise sum of the crime-type
columns of that row, provided the input frame does not itself carry a
column named `total_crime` — on such a frame pandas overwrites the
existing column with a sum over its old values and the invariant fails
(see the counterexample). -/
theorem claim9_total_rowwise_sum (df : DataFrame) (cc : List String)
    (hwf : ∀ r ∈ df.rows, r.length = df.cols.length)
    (h1 : "total_crime" ∉ df.cols) (h2 : "total_crime" ∉ cc) :
    ∀ r ∈ (addTotal df cc).rows,
      cellOf (addTotal df cc).cols r "total_crime" =
        sumVals (cc.map (fun c => cellOf (addTotal df cc).cols r c)) := by
  have hset : addTotal df cc =
      ⟨df.cols ++ ["total_crime"],
        df.rows.map (fun r0 => r0 ++ [sumVals (cc.map (fun c => cellOf df.cols r0 c))])⟩ := by
    unfold addTotal setColDF
    rw [if_neg h1, zipWith_append_map]
  intro r hr
  rw [hset] at hr ⊢
  simp only [] at hr ⊢
  rw [List.mem_map] at hr
  obtain ⟨r0, hr0, rfl⟩ := hr
  have hlen : r0.length = df.cols.length := hwf r0 hr0
  rw [cellOf_append_self df.cols r0 "total_crime" _ hlen h1]
  congr 1
  apply List.map_congr_left
  intro c hcmem
  exact (cellOf_append_other df.cols r0 "total_crime" c _ hlen
    (fun h => h2 (h ▸ hcmem))).symm

/-- Claim C9 witness: a single aggregate row with two crime columns. -/
theorem claim9_total_rowwise_sum_witness :
    ((∀ r ∈ wFrame9.rows, r.length = wFrame9.cols.length) ∧
      "total_crime" ∉ wFrame9.cols ∧ "total_crime" ∉ ["theft", "assault"]) ∧
    (∀ r ∈ (addTotal wFrame9 ["theft", "assault"]).rows,
      cellOf (addTotal wFrame9 ["theft", "assault"]).cols r "total_crime" =
        sumVals (["theft", "assault"].map
          (fun c => cellOf (addTotal wFrame9 ["theft", "assault"]).cols r c))) :=
  ⟨⟨by decide, by decide, by decide⟩,
   claim9_total_rowwise_sum wFrame9 ["theft", "assault"]
     (by decide) (by decide) (by decide)⟩

theorem firstDedupGo_nil {α : Type} [DecidableEq α] (seen : List α) :
    firstDedupGo seen ([] : List α) = [] := rfl

theorem firstDedupGo_cons {α : Type} [DecidableEq α] (seen : List α) (x : α) (xs : List α) :
    firstDedupGo seen (x :: xs) =
      if x ∈ seen then firstDedupGo seen xs else x :: firstDedupGo (x :: seen) xs := rfl

theorem firstDedupGo_mem {α : Type} [DecidableEq α] (seen l : List α) (a : α) :
    a ∈ firstDedupGo seen l ↔ a ∈ l ∧ a ∉ seen := by
  induction l generalizing seen with
  | nil => simp [firstDedupGo_nil]
  | cons x xs ih =>
    by_cases hx : x ∈ seen
    · rw [firstDedupGo_cons, if_pos hx, ih]
      simp only [List.mem_cons]
      constructor
      · rintro ⟨h1, h2⟩
        exact ⟨Or.inr h1, h2⟩
      · rintro ⟨h1 | h1, h2⟩
        · subst h1
          exact absurd hx h2
        · exact ⟨h1, h2⟩
    · rw [firstDedupGo_cons, if_neg hx]
      simp only [List.mem_cons, ih (x :: seen)]
      constructor
      · rintro (rfl | ⟨h1, h2⟩)
        · exact ⟨Or.inl rfl, hx⟩
        · simp only [List.mem_cons, not_or] at h2
          exact ⟨Or.inr h1, h2.2⟩
      · rintro ⟨rfl | h1, h2⟩
        · exact Or.inl rfl
        · by_cases hax : a = x
          · exact Or.inl hax
          · refine Or.inr ⟨h1, ?_⟩
            simp only [List.mem_cons, not_or]
            exact ⟨hax, h2⟩

theorem firstDedupGo_nodup {α : Type} [DecidableEq α] (seen l : List α) :
    (firstDedupGo seen l).Nodup ∧ ∀ a ∈ firstDedupGo seen l, a ∉ seen := by
  induction l generalizing seen with
  | nil =>
    refine ⟨List.nodup_nil, ?_⟩
    intro a ha
    simp [firstDedupGo_nil] at ha
  | cons x xs ih =>
    by_cases hx : x ∈ seen
    · rw [firstDedupGo_cons, if_pos hx]
      exact ih seen
    · rw [firstDedupGo_cons, if_neg hx]
      obtain ⟨hnd, hns⟩ := ih (x :: seen)
      constructor
      · rw [List.nodup_cons]
        exact ⟨fun hxin => hns x hxin (List.mem_cons_self _ _), hnd⟩
      · intro a ha
        rcases List.mem_cons.mp ha with rfl | ha2
        · exact hx
        · exact fun hseen => hns a ha2 (List.mem_cons_of_mem _ hseen)

theorem firstDedup_mem {α : Type} [DecidableEq α] (l : List α) (a : α) :
    a ∈ firstDedup l ↔ a ∈ l := by
  rw [firstDedup, firstDedupGo_mem]
  simp

theorem firstDedup_nodup {α : Type} [DecidableEq α] (l : List α) :
    (firstDedup l).Nodup :=
  (firstDedupGo_nodup [] l).1

/-- Claim C5 (counterexample): a filtered input whose single row has a
missing district name has one distinct grouping key, yet the aggregate has
zero rows — pandas `groupby` drops rows whose key is `NaN` (the
`dropna=True` default), so the output key set is not the input key set. -/
theorem claim5_counterexample :
    groupby cexFrame5 ["district_name"] ["theft"] =
      .ok ⟨["district_name", "theft"], []⟩ ∧
    firstDedup (cexFrame5.rows.map (fun r => keyOf cexFrame5.cols ["district_name"] r)) =
      [[Value.missing]] := by decide

/-- Claim C5 (amended): on a filtered input in which no row has a missing
grouping-key cell, the aggregator yields exactly one row per distinct key
tuple, the output key set equals the input key set, and each crime-type
value is the sum of that column over exactly the rows sharing the key. -/
theorem claim5_groupby (df : DataFrame) (keys cc : List String)
    (hp : ∀ c ∈ keys ++ cc, c ∈ df.cols)
    (hnm : ∀ r ∈ df.rows, Value.missing ∉ keyOf df.cols keys r) :
    ∃ g, groupby df keys cc = .ok g ∧
      g.rows.map (fun gr => gr.take keys.length) =
        firstDedup (df.rows.map (fun r => keyOf df.cols keys r)) ∧
      (g.rows.map (fun gr => gr.take keys.length)).Nodup ∧
      (∀ k, k ∈ g.rows.map (fun gr => gr.take keys.length) ↔
        k ∈ df.rows.map (fun r => keyOf df.cols keys r)) ∧
      (∀ gr ∈ g.rows, gr.drop keys.length = cc.map (fun c =>
        sumVals ((df.rows.filter (fun r =>
          decide (keyOf df.cols keys r = gr.take keys.length))).map
            (fun r => cellOf df.cols r c)))) := by
  have hfind : (keys ++ cc).find? (fun c => decide (c ∉ df.cols)) = none := by
    rw [List.find?_eq_none]
    intro c hcmem
    simp [hp c hcmem]
  have hkept : df.rows.filter (fun r => decide (Value.missing ∉ keyOf df.cols keys r)) =
      df.rows := by
    rw [List.filter_eq_self]
    intro r hr
    simp [hnm r hr]
  have hg : groupby df keys cc = .ok
      ⟨keys ++ cc,
        (firstDedup (df.rows.map (fun r => keyOf df.cols keys r))).map (fun k =>
          k ++ cc.map (fun c =>
            sumVals ((df.rows.filter (fun r =>
              decide (keyOf df.cols keys r = k))).map
                (fun r => cellOf df.cols r c))))⟩ := by
    unfold groupby
    rw [hfind]
    show Except.ok (groupbyCore df keys cc) = _
    apply congrArg
    simp only [groupbyCore]
    rw [hkept]
  have hklen : ∀ k ∈ firstDedup (df.rows.map (fun r => keyOf df.cols keys r)),
      k.length = keys.length := by
    intro k hk
    rw [firstDedup_mem, List.mem_map] at hk
    obtain ⟨r, hr, rfl⟩ := hk
    simp [keyOf]
  refine ⟨_, hg, ?_, ?_, ?_, ?_⟩
  · show ((firstDedup (df.rows.map (fun r => keyOf df.cols keys r))).map _).map _ = _
    rw [List.map_map]
    have hid : ∀ k ∈ firstDedup (df.rows.map (fun r => keyOf df.cols keys r)),
        ((fun gr => gr.take keys.length) ∘ (fun k => k ++ cc.map (fun c =>
          sumVals ((df.rows.filter (fun r =>
            decide (keyOf df.cols keys r = k))).map
              (fun r => cellOf df.cols r c))))) k = id k := by
      intro k hk
      simp only [Function.comp, id]
      rw [← hklen k hk]
      exact List.take_left _ _
    rw [List.map_congr_left hid, List.map_id]
  · show (((firstDedup (df.rows.map (fun r => keyOf df.cols keys r))).map _).map _).Nodup
    rw [List.map_map]
    have hid : ∀ k ∈ firstDedup (df.rows.map (fun r => keyOf df.cols keys r)),
        ((fun gr => gr.take keys.length) ∘ (fun k => k ++ cc.map (fun c =>
          sumVals ((df.rows.filter (fun r =>
            decide (keyOf df.cols keys r = k))).map
              (fun r => cellOf df.cols r c))))) k = id k := by
      intro k hk
      simp only [Function.comp, id]
      rw [← hklen k hk]
      exact List.take_left _ _
    rw [List.map_congr_left hid, List.map_id]
    exact firstDedup_nodup _
  · intro k
    show k ∈ ((firstDedup (df.rows.map (fun r => keyOf df.cols keys r))).map _).map _ ↔ _
    rw [List.map_map]
    have hid : ∀ k ∈ firstDedup (df.rows.map (fun r => keyOf df.cols keys r)),
        ((fun gr => gr.take keys.length) ∘ (fun k => k ++ cc.map (fun c =>
          sumVals ((df.rows.filter (fun r =>
            decide (keyOf df.cols keys r = k))).map
              (fun r => cellOf df.cols r c))))) k = id k := by
      intro k hk
      simp only [Function.comp, id]
      rw [← hklen k hk]
      exact List.take_left _ _
    rw [List.map_congr_left hid, List.map_id]
    exact firstDedup_mem _ _
  · intro gr hgr
    rw [List.mem_map] at hgr
    obtain ⟨k, hk, rfl⟩ := hgr
    have htk : (k ++ cc.map (fun c =>
        sumVals ((df.rows.filter (fun r =>
          decide (keyOf df.cols keys r = k))).map
            (fun r => cellOf df.cols r c)))).take keys.length = k := by
      rw [← hklen k hk]
      exact List.take_left _ _
    have hdk : (k ++ cc.map (fun c =>
        sumVals ((df.rows.filter (fun r =>
          decide (keyOf df.cols keys r = k))).map
            (fun r => cellOf df.cols r c)))).drop keys.length = cc.map (fun c =>
        sumVals ((df.rows.filter (fun r =>
          decide (keyOf df.cols keys r = k))).map
            (fun r => cellOf df.cols r c))) := by
      rw [← hklen k hk]
      exact List.drop_left _ _
    rw [htk, hdk]

/-- Claim C5 witness: three rows in two districts, all keys present. -/
theorem claim5_groupby_witness :
    ((∀ c ∈ ["district_name"] ++ ["theft"], c ∈ wFrame5.cols) ∧
      (∀ r ∈ wFrame5.rows, Value.missing ∉ keyOf wFrame5.cols ["district_name"] r)) ∧
    (∃ g, groupby wFrame5 ["district_name"] ["theft"] = .ok g ∧
      g.rows.map (fun gr => gr.take (["district_name"] : List String).length) =
        firstDedup (wFrame5.rows.map (fun r => keyOf wFrame5.cols ["district_name"] r)) ∧
      (g.rows.map (fun gr => gr.take (["district_name"] : List String).length)).Nodup ∧
      (∀ k, k ∈ g.rows.map (fun gr => gr.take (["district_name"] : List String).length) ↔
        k ∈ wFrame5.rows.map (fun r => keyOf wFrame5.cols ["district_name"] r)) ∧
      (∀ gr ∈ g.rows, gr.drop (["district_name"] : List String).length =
        (["theft"] : List String).map (fun c =>
          sumVals ((wFrame5.rows.filter (fun r =>
            decide (keyOf wFrame5.cols ["district_name"] r = gr.take
              (["district_name"] : List String).length))).map
                (fun r => cellOf wFrame5.cols r c))))) :=
  ⟨⟨by decide, by decide⟩,
   claim5_groupby wFrame5 ["district_name"] ["theft"] (by decide) (by decide)⟩

theorem insertRowAsc_cons (key : List Value → ℚ) (x y : List Value)
    (ys : List (List Value)) :
    insertRowAsc key x (y :: ys) =
      if key y < key x then y :: insertRowAsc key x ys else x :: y :: ys := rfl

theorem mem_insertRowAsc (key : List Value → ℚ) (x a : List Value)
    (l : List (List Value)) :
    a ∈ insertRowAsc key x l ↔ a = x ∨ a ∈ l := by
  induction l with
  | nil => simp [insertRowAsc]
  | cons y ys ih =>
    rw [insertRowAsc_cons]
    by_cases h : key y < key x
    · rw [if_pos h]
      simp only [List.mem_cons, ih]
      tauto
    · rw [if_neg h]
      simp only [List.mem_cons]

theorem length_insertRowAsc (key : List Value → ℚ) (x : List Value)
    (l : List (List Value)) :
    (insertRowAsc key x l).length = l.length + 1 := by
  induction l with
  | nil => rfl
  | cons y ys ih =>
    rw [insertRowAsc_cons]
    by_cases h : key y < key x
    · rw [if_pos h]
      simp [ih]
    · rw [if_neg h]
      simp

theorem length_sortRowsAsc (key : List Value → ℚ) (l : List (List Value)) :
    (sortRowsAsc key l).length = l.length := by
  induction l with
  | nil => rfl
  | cons x xs ih =>
    show (insertRowAsc key x (sortRowsAsc key xs)).length = _
    rw [length_insertRowAsc, ih]
    rfl

theorem mem_sortRowsAsc (key : List Value → ℚ) (a : List Value)
    (l : List (List Value)) :
    a ∈ sortRowsAsc key l ↔ a ∈ l := by
  induction l with
  | nil => simp [sortRowsAsc]
  | cons x xs ih =>
    show a ∈ insertRowAsc key x (sortRowsAsc key xs) ↔ _
    rw [mem_insertRowAsc]
    simp [ih, List.mem_cons]

theorem pairwise_insertRowAsc (key : List Value → ℚ) (x : List Value)
    (l : List (List Value))
    (h : List.Pairwise (fun a b => key a ≤ key b) l) :
    List.Pairwise (fun a b => key a ≤ key b) (insertRowAsc key x l) := by
  induction l with
  | nil => simp [insertRowAsc]
  | cons y ys ih =>
    rw [List.pairwise_cons] at h
    obtain ⟨hy, hys⟩ := h
    rw [insertRowAsc_cons]
    by_cases hk : key y < key x
    · rw [if_pos hk, List.pairwise_cons]
      constructor
      · intro z hz
        rcases (mem_insertRowAsc key x z ys).mp hz with rfl | hz2
        · exact le_of_lt hk
        · exact hy z hz2
      · exact ih hys
    · rw [if_neg hk, List.pairwise_cons]
      constructor
      · intro z hz
        rcases List.mem_cons.mp hz with rfl | hz2
        · exact le_of_not_lt hk
        · exact le_trans (le_of_not_lt hk) (hy z hz2)
      · rw [List.pairwise_cons]
        exact ⟨hy, hys⟩

theorem pairwise_sortRowsAsc (key : List Value → ℚ) (l : List (List Value)) :
    List.Pairwise (fun a b => key a ≤ key b) (sortRowsAsc key l) := by
  induction l with
  | nil => simp [sortRowsAsc]
  | cons x xs ih => exact pairwise_insertRowAsc key x _ ih

/-- Claim C8 (counterexample): on an aggregate with two rows tied on
`crime_index`, the ranker emits them in REVERSED original order, not the
stable original order the claim demands — pandas `sort_values` with
`ascending=False` reverses an ascending argsort, which flips ties. -/
theorem claim8_counterexample :
    (topDistricts cexFrame8 5).rows =
      [[Value.str "Y", Value.num 1], [Value.str "X", Value.num 1]] ∧
    (topDistricts cexFrame8 5).rows ≠ cexFrame8.rows := by decide

/-- Claim C8 (amended): for a district aggregate and `top_n` in 5..25, the
ranker returns exactly min(top_n, number of rows) rows, sorted by
`crime_index` descending, every returned row being a row of the aggregate;
the order among `crime_index` ties is NOT the stable original order. -/
theorem claim8_ranker (df : DataFrame) (n : ℕ) (_h5 : 5 ≤ n) (_h25 : n ≤ 25) :
    (topDistricts df n).rows.length = min n df.rows.length ∧
    List.Pairwise (fun a b =>
      rowKey df.cols "crime_index" b ≤ rowKey df.cols "crime_index" a)
      (topDistricts df n).rows ∧
    ∀ r ∈ (topDistricts df n).rows, r ∈ df.rows := by
  refine ⟨?_, ?_, ?_⟩
  · show ((sortRowsAsc (rowKey df.cols "crime_index") df.rows).reverse.take n).length = _
    rw [List.length_take, List.length_reverse, length_sortRowsAsc]
  · show List.Pairwise _
      ((sortRowsAsc (rowKey df.cols "crime_index") df.rows).reverse.take n)
    apply List.Pairwise.sublist (List.take_sublist _ _)
    rw [List.pairwise_reverse]
    exact pairwise_sortRowsAsc _ _
  · intro r hr
    have h1 : r ∈ (sortRowsAsc (rowKey df.cols "crime_index") df.rows).reverse :=
      List.mem_of_mem_take hr
    rw [List.mem_reverse] at h1
    exact (mem_sortRowsAsc _ _ _).mp h1

/-- Claim C8 witness: a one-row aggregate ranked with top_n = 5. -/
theorem claim8_ranker_witness :
    (5 ≤ 5 ∧ 5 ≤ 25) ∧
    ((topDistricts wFrame8 5).rows.length = min 5 wFrame8.rows.length ∧
      List.Pairwise (fun a b =>
        rowKey wFrame8.cols "crime_index" b ≤ rowKey wFrame8.cols "crime_index" a)
        (topDistricts wFrame8 5).rows ∧
      ∀ r ∈ (topDistricts wFrame8 5).rows, r ∈ wFrame8.rows) :=
  ⟨⟨by decide, by decide⟩, claim8_ranker wFrame8 5 (by decide) (by decide)⟩

end Crime
